import Mathlib

/-!
# gocorsproxy: the CORS forwarding handler of `main.go`

A shallow embedding of `originAllowed`, `allowOriginValue` and `corsProxyHandler`,
followed by the properties of the forwarding contract.

The handler is written against the Go standard library.  The library values it touches
are modelled as follows.

* Go strings are Lean strings; bodies are lists of bytes.
* `http.Header` and `url.Values` (`map[string][]string`) are association lists; the
  order of the list is the order in which `range` visits the map.
* `http.ResponseWriter` is a recorder: the header map of `w.Header()`, the status line
  and header block sent by the first `WriteHeader`, the body bytes written, and the
  panic `WriteHeader` raises for a status code below 100 or above 999.
* `url.Parse`, the validity check of `http.NewRequest` and `(*http.Client).Do` are
  fields of `Net`, the part of the outside world the handler talks to.  The examples
  run in a world built on `url.getScheme`, the first step of `url.Parse`.
* The package variable `allowedOrigins` is a parameter `allowList` of the functions that
  read it, so that every property holds for every configured list.
-/

namespace GoCorsProxy

/-! ## Strings and bytes -/

/-- Bodies of requests and responses. -/
abbrev Bytes := List UInt8

/-- The bytes written when a Go string is printed to a writer. -/
def stringBytes (s : String) : Bytes :=
  s.data.flatMap String.utf8EncodeChar

namespace strings

/-- Go `strings.ToLower`.  Lower-casing here is ASCII-only; the handler only compares the
result with the ASCII words `host` and `access-control-`, none of whose letters is the
lower case of a non-ASCII rune, so both tests agree with Go on every string. -/
def ToLower (s : String) : String :=
  ⟨s.data.map Char.toLower⟩

/-- Go `strings.HasPrefix`. -/
def HasPrefix (s pre : String) : Bool :=
  pre.data.isPrefixOf s.data

end strings

/-! ## Header maps -/

namespace textproto

/-- Go `validHeaderFieldByte`: the token characters of RFC 7230. -/
def validHeaderFieldByte (c : Char) : Bool :=
  c.isAlphanum ||
    [33, 35, 36, 37, 38, 39, 42, 43, 45, 46, 94, 95, 96, 124, 126].contains c.toNat

/-- The rewriting loop of Go `canonicalMIMEHeaderKey`: upper case at the start and after
each dash, lower case elsewhere. -/
def canonicalize : Bool → List Char → List Char
  | _, [] => []
  | upper, c :: cs =>
    let c1 := if upper && c.isLower then c.toUpper
      else if !upper && c.isUpper then c.toLower else c
    c1 :: canonicalize (c1 == '-') cs

/-- Go `textproto.CanonicalMIMEHeaderKey`: a key holding a byte that is not a token
character is returned unchanged. -/
def CanonicalMIMEHeaderKey (s : String) : String :=
  if s.data.all validHeaderFieldByte then ⟨canonicalize true s.data⟩ else s

end textproto

/-- Go `http.Header`, a `map[string][]string`. -/
abbrev Header := List (String × List String)

namespace Header

/-- Map indexing `h[k]`, `nil` for a missing key. -/
def index : Header → String → List String
  | [], _ => []
  | (k1, vv) :: rest, k => if k1 = k then vv else index rest k

/-- Map assignment `h[k] = vv`. -/
def store : Header → String → List String → Header
  | [], k, vv => [(k, vv)]
  | (k1, vv1) :: rest, k, vv =>
    if k1 = k then (k, vv) :: rest else (k1, vv1) :: store rest k vv

/-- Map deletion `delete(h, k)`. -/
def delete : Header → String → Header
  | [], _ => []
  | (k1, vv1) :: rest, k => if k1 = k then delete rest k else (k1, vv1) :: delete rest k

/-- Go `Header.Get`: the first value under the canonical form of the key, or `""`. -/
def Get (h : Header) (key : String) : String :=
  match index h (textproto.CanonicalMIMEHeaderKey key) with
  | [] => ""
  | v :: _ => v

/-- Go `Header.Set`: replaces the values under the canonical form of the key. -/
def Set (h : Header) (key value : String) : Header :=
  store h (textproto.CanonicalMIMEHeaderKey key) [value]

/-- Go `Header.Add`: appends to the values under the canonical form of the key. -/
def Add (h : Header) (key value : String) : Header :=
  store h (textproto.CanonicalMIMEHeaderKey key)
    (index h (textproto.CanonicalMIMEHeaderKey key) ++ [value])

/-- Go `Header.Del`. -/
def Del (h : Header) (key : String) : Header :=
  delete h (textproto.CanonicalMIMEHeaderKey key)

/-- The keys of the map. -/
def keys (h : Header) : List String :=
  h.map Prod.fst

/-- A header map as the Go server and client hand it over: every key once, every key in
the form `CanonicalMIMEHeaderKey` leaves unchanged. -/
def WellFormed (h : Header) : Prop :=
  (keys h).Nodup ∧ ∀ k ∈ keys h, textproto.CanonicalMIMEHeaderKey k = k

instance (h : Header) : Decidable (WellFormed h) := by
  unfold WellFormed; exact inferInstance

end Header

/-- Go `url.Values`, the parsed query string. -/
abbrev Values := List (String × List String)

namespace Values

/-- Go `Values.Has`: the query string names the key. -/
def Has : Values → String → Bool
  | [], _ => false
  | (k1, _) :: rest, k => if k1 = k then true else Has rest k

/-- Go `Values.Get`: the first value under the key, `""` when there is none. -/
def Get : Values → String → String
  | [], _ => ""
  | (k1, vv) :: rest, k =>
    if k1 = k then
      match vv with
      | [] => ""
      | v :: _ => v
    else Get rest k

end Values

/-! ## Requests, responses and the response writer -/

/-- The inbound `*http.Request`, as far as the handler reads it; `Query` is the value of
`r.URL.Query()`. -/
structure Request where
  Method : String
  Header : Header
  Query : Values
  Body : Bytes

/-- The outbound `*http.Request` built by `http.NewRequest`. -/
structure ClientRequest where
  Method : String
  URL : String
  Header : Header
  Body : Bytes
deriving DecidableEq

/-- The upstream `*http.Response`.  `StatusCode` is the number read from the three
digits of the status line of the final response (the client consumes interim `1xx`
responses other than `101` itself); its range is not checked, so `099` arrives as 99. -/
structure Response where
  StatusCode : Nat
  Header : Header
  Body : Bytes

/-- The `http.ResponseWriter`: `header` is the map of `w.Header()`; `status` and
`sentHeader` are the status code and the header block that the first `WriteHeader` sent;
`body` is what was written after them; `panicked` holds the message of the panic a call
on the writer raised, after which the handler has stopped and nothing more is sent. -/
structure ResponseWriter where
  header : Header
  status : Option Nat
  sentHeader : Header
  body : Bytes
  panicked : Option String

namespace ResponseWriter

/-- The writer a handler is called with. -/
def fresh : ResponseWriter :=
  { header := [], status := none, sentHeader := [], body := [], panicked := none }

/-- Go `w.WriteHeader(code)`: a call after the first is ignored; otherwise a code below
100 or above 999 panics (`checkWriteHeaderCode`) and sends nothing; otherwise the status
and the header map as it stands are sent. -/
def WriteHeader (w : ResponseWriter) (code : Nat) : ResponseWriter :=
  match w.panicked with
  | some _ => w
  | none =>
    match w.status with
    | some _ => w
    | none =>
      if code < 100 ∨ code > 999 then
        { w with panicked := some ("invalid WriteHeader code " ++ toString code) }
      else { w with status := some code, sentHeader := w.header }

/-- Go `w.Write(b)`: sends `200` first when no status was sent yet.  After a panic the
handler has stopped, so the call does not happen. -/
def Write (w : ResponseWriter) (b : Bytes) : ResponseWriter :=
  match w.panicked with
  | some _ => w
  | none =>
    let w1 := match w.status with
      | some _ => w
      | none => WriteHeader w 200
    { w1 with body := w1.body ++ b }

/-- The statement `w.Header().Set(key, value)`. -/
def setHeader (w : ResponseWriter) (key value : String) : ResponseWriter :=
  { w with header := Header.Set w.header key value }

end ResponseWriter

namespace http

def MethodOptions : String := "OPTIONS"
def StatusOK : Nat := 200
def StatusNoContent : Nat := 204
def StatusBadRequest : Nat := 400
def StatusForbidden : Nat := 403
def StatusInternalServerError : Nat := 500

/-- Go `http.Error`: a plain-text reply, the message followed by a newline. -/
def Error (w : ResponseWriter) (error : String) (code : Nat) : ResponseWriter :=
  let h := Header.Del w.header "Content-Length"
  let h := Header.Set h "Content-Type" "text/plain; charset=utf-8"
  let h := Header.Set h "X-Content-Type-Options" "nosniff"
  let w := ResponseWriter.WriteHeader { w with header := h } code
  ResponseWriter.Write w (stringBytes (error ++ "\n"))

end http

namespace url

/-- The loop of Go `getScheme`, at index `i` of `rawURL` with `rest` still to read. -/
def getSchemeLoop (rawURL : String) : Nat → List Char → Except String (String × String)
  | _, [] => .ok ("", rawURL)
  | i, c :: rest =>
    if c.isAlpha then getSchemeLoop rawURL (i + 1) rest
    else if c.isDigit || c == '+' || c == '-' || c == '.' then
      if i = 0 then .ok ("", rawURL) else getSchemeLoop rawURL (i + 1) rest
    else if c == ':' then
      if i = 0 then .error "missing protocol scheme"
      else .ok (⟨rawURL.data.take i⟩, ⟨rest⟩)
    else .ok ("", rawURL)

/-- Go `getScheme` of `net/url`, the first step of `url.Parse`: the scheme before the
first colon and the rest, an empty scheme when there is none, an error when the string
starts with a colon. -/
def getScheme (rawURL : String) : Except String (String × String) :=
  getSchemeLoop rawURL 0 rawURL.data

/-- Go `(*URL).IsAbs` read off the raw string: the URL has a scheme. -/
def isAbs (rawURL : String) : Bool :=
  match getScheme rawURL with
  | .ok (scheme, _) => scheme != ""
  | .error _ => false

end url

/-- The library calls that reach outside the handler.  `Parse target` is
`url.Parse(target)` followed by `String()` on the result; `NewRequest method url` is the
error of `http.NewRequest`, if any; `Do` is `client.Do` with its 30 second timeout.
An `error` carries the text of `err.Error()`. -/
structure Net where
  Parse : String → Except String String
  NewRequest : String → String → Option String
  Do : ClientRequest → Except String Response

/-- What one call of the handler did: the response it wrote and the upstream requests it
passed to `client.Do`, in order. -/
structure Outcome where
  w : ResponseWriter
  calls : List ClientRequest

/-! ## The program -/

/-- The configured allow-list of `main.go`. -/
def allowedOrigins : List String :=
  ["https://debridui-alt.vercel.app"]

/-- The loop of `originAllowed` over the allow-list. -/
def originAllowedLoop (origin : String) : List String → Bool
  | [] => false
  | o :: rest => if o = "*" ∨ o = origin then true else originAllowedLoop origin rest

/-- `originAllowed` of `main.go`. -/
def originAllowed (allowList : List String) (origin : String) : Bool :=
  if origin = "" then true else originAllowedLoop origin allowList

/-- `allowOriginValue` of `main.go`. -/
def allowOriginValue (allowList : List String) (origin : String) : String :=
  match allowList with
  | [] => origin
  | o :: rest => if o = "*" then "*" else allowOriginValue rest origin

/-- The inner loop `for _, v := range vv { h.Add(k, v) }`. -/
def addValues (h : Header) (k : String) : List String → Header
  | [] => h
  | v :: vs => addValues (Header.Add h k v) k vs

/-- The loop copying the inbound headers onto the upstream request, `Host` left out. -/
def copyRequestHeaders : Header → Header → Header
  | [], dst => dst
  | (k, vv) :: rest, dst =>
    if strings.ToLower k = "host" then copyRequestHeaders rest dst
    else copyRequestHeaders rest (addValues dst k vv)

/-- The loop copying the upstream response headers, the CORS headers left out. -/
def copyResponseHeaders : Header → Header → Header
  | [], dst => dst
  | (k, vv) :: rest, dst =>
    let lk := strings.ToLower k
    if strings.HasPrefix lk "access-control-" then copyResponseHeaders rest dst
    else copyResponseHeaders rest (addValues dst k vv)

/-- The value of the `Access-Control-Allow-Methods` header. -/
def allowMethods : String := "GET,HEAD,POST,PUT,DELETE,PATCH,OPTIONS"

def demoHTML : String :=
  "<!DOCTYPE html>\n" ++
  "<html>\n" ++
  "<head>\n" ++
  "<title>Universal CORS Proxy</title>\n" ++
  "<style>\n" ++
  "body\x7bfont-family:Arial,sans-serif;max-width:800px;margin:0 auto;padding:20px\x7d\n" ++
  "code\x7bbackground:#f4f4f4;padding:10px;display:block;margin:10px 0\x7d\n" ++
  ".status\x7bfont-weight:bold\x7d\n" ++
  ".error\x7bcolor:red\x7d\n" ++
  ".success\x7bcolor:green\x7d\n" ++
  "</style>\n" ++
  "</head>\n" ++
  "<body>\n" ++
  "<h1>Universal CORS Proxy</h1>\n" ++
  "<p>Make cross-origin requests to any API.</p>\n" ++
  "<h2>Usage</h2>\n" ++
  "<code>http://localhost:8080/?url=https://api.example.com/endpoint</code>\n" ++
  "<h2>Test</h2>\n" ++
  "<input type=\"url\" id=\"u\" placeholder=\"API URL\" style=\"width:400px;padding:5px\">\n" ++
  "<button onclick=\"t()\">GET</button>\n" ++
  "<button onclick=\"p()\">POST</button>\n" ++
  "<h3>Result:</h3>\n" ++
  "<p class=\"status\" id=\"s\">Ready</p>\n" ++
  "<code id=\"r\">No requests made</code>\n" ++
  "<script>\n" ++
  "async function t()\x7b\n" ++
  "        const u=document.getElementById(\x27u\x27).value,s=document.getElementById(\x27s\x27),r=document.getElementById(\x27r\x27);\n" ++
  "        if(!u)\x7bs.textContent=\x27Enter URL\x27;s.className=\x27status error\x27;return\x7d\n" ++
  "        try\x7b\n" ++
  "                s.textContent=\x27Loading...\x27;s.className=\x27status\x27;\n" ++
  "                const x=await fetch(\x27/?url=\x27+encodeURIComponent(u)),d=await x.text();\n" ++
  "                s.textContent=\x27Success: \x27+x.status;s.className=\x27status success\x27;r.textContent=d\n" ++
  "        \x7dcatch(e)\x7b\n" ++
  "                s.textContent=\x27Error: \x27+e.message;s.className=\x27status error\x27;r.textContent=e\n" ++
  "        \x7d\n" ++
  "\x7d\n" ++
  "async function p()\x7b\n" ++
  "        const u=document.getElementById(\x27u\x27).value,s=document.getElementById(\x27s\x27),r=document.getElementById(\x27r\x27);\n" ++
  "        if(!u)\x7bs.textContent=\x27Enter URL\x27;s.className=\x27status error\x27;return\x7d\n" ++
  "        try\x7b\n" ++
  "                s.textContent=\x27Loading...\x27;s.className=\x27status\x27;\n" ++
  "                const x=await fetch(\x27/?url=\x27+encodeURIComponent(u),\x7b\n" ++
  "                        method:\x27POST\x27,\n" ++
  "                        headers:\x7b\x27Content-Type\x27:\x27application/json\x27\x7d,\n" ++
  "                        body:JSON.stringify(\x7bmsg:\x27Hello\x27,ts:Date.now()\x7d)\n" ++
  "                \x7d),d=await x.text();\n" ++
  "                s.textContent=\x27Success: \x27+x.status;s.className=\x27status success\x27;r.textContent=d\n" ++
  "        \x7dcatch(e)\x7b\n" ++
  "                s.textContent=\x27Error: \x27+e.message;s.className=\x27status error\x27;r.textContent=e\n" ++
  "        \x7d\n" ++
  "\x7d\n" ++
  "</script>\n" ++
  "</body>\n" ++
  "</html>"

/-- `corsProxyHandler` of `main.go`. -/
def corsProxyHandler (net : Net) (allowList : List String) (w : ResponseWriter)
    (r : Request) : Outcome :=
  let origin := Header.Get r.Header "Origin"
  if r.Method = http.MethodOptions then
    if !originAllowed allowList origin then
      ⟨w.WriteHeader http.StatusForbidden, []⟩
    else
      let w := w.setHeader "Access-Control-Allow-Origin" (allowOriginValue allowList origin)
      let w := w.setHeader "Access-Control-Allow-Methods" allowMethods
      let w := w.setHeader "Access-Control-Allow-Headers"
        (Header.Get r.Header "Access-Control-Request-Headers")
      let w := w.setHeader "Access-Control-Max-Age" "86400"
      ⟨w.WriteHeader http.StatusNoContent, []⟩
  else
    let target := Values.Get r.Query "url"
    if target = "" then
      let w := w.WriteHeader http.StatusOK
      ⟨w.Write (stringBytes demoHTML), []⟩
    else if !originAllowed allowList origin then
      ⟨http.Error w "Origin not allowed" http.StatusForbidden, []⟩
    else
      match net.Parse target with
      | .error _ => ⟨http.Error w "Invalid target URL" http.StatusBadRequest, []⟩
      | .ok parsedTarget =>
        match net.NewRequest r.Method parsedTarget with
        | some _ =>
          ⟨http.Error w "Failed to create proxy request" http.StatusInternalServerError, []⟩
        | none =>
          let req : ClientRequest :=
            { Method := r.Method, URL := parsedTarget,
              Header := copyRequestHeaders r.Header [], Body := r.Body }
          match net.Do req with
          | .error err =>
            let w := w.setHeader "Access-Control-Allow-Origin"
              (allowOriginValue allowList origin)
            ⟨http.Error w ("Proxy error: " ++ err) http.StatusInternalServerError, [req]⟩
          | .ok resp =>
            let w := { w with header := copyResponseHeaders resp.Header w.header }
            let w := w.setHeader "Access-Control-Allow-Origin"
              (allowOriginValue allowList origin)
            let w := w.setHeader "Access-Control-Allow-Methods" allowMethods
            let w := w.setHeader "Vary" "Origin"
            let w := w.WriteHeader resp.StatusCode
            ⟨w.Write resp.Body, [req]⟩

/-- One request through the handler, as the server runs it: with a fresh writer. -/
def serve (net : Net) (allowList : List String) (r : Request) : Outcome :=
  corsProxyHandler net allowList ResponseWriter.fresh r

/-- The upstream request the handler builds from the inbound request and the parsed
target. -/
def upstreamRequest (r : Request) (parsedTarget : String) : ClientRequest :=
  { Method := r.Method, URL := parsedTarget,
    Header := copyRequestHeaders r.Header [], Body := r.Body }

/-- A reply in the shape `http.Error` gives it: the status, a `text/plain` content type
and the message followed by a newline, which is never empty. -/
def PlainTextError (w : ResponseWriter) (code : Nat) (msg : String) : Prop :=
  w.status = some code ∧
    Header.index w.sentHeader "Content-Type" = ["text/plain; charset=utf-8"] ∧
    w.body = stringBytes (msg ++ "\n") ∧ w.body ≠ []

/-! ## Sample inputs -/

/-- An upstream reply that carries its own `Vary` and CORS headers. -/
def sampleResponse : Response :=
  { StatusCode := 201,
    Header := [("Content-Type", ["application/json"]), ("Vary", ["Accept-Encoding"]),
      ("Access-Control-Allow-Origin", ["https://upstream.example"]),
      ("Set-Cookie", ["a=1", "b=2"])],
    Body := [123, 125] }

/-- An upstream reply whose status line reads `099`. -/
def oddResponse : Response :=
  { StatusCode := 99, Header := [("Content-Type", ["text/plain"])], Body := [111, 107] }

/-- The text of the error `client.Do` returns for a URL it cannot send to. -/
def clientError (method rawURL reason : String) : String :=
  String.mk (method.data.take 1 ++ (method.data.drop 1).map Char.toLower) ++
    " \"" ++ rawURL ++ "\": " ++ reason

/-- A world for the examples.  Its parser fails where `getScheme` fails and hands every
other string back unchanged, as `url.Parse` does on the plain targets used here.
`http.NewRequest` refuses the method `"G T"`.  The client refuses a URL whose scheme is
neither `http` nor `https`, cannot reach `down.example`, reads a status line `099` from
`odd.example`, and gets `sampleResponse` everywhere else. -/
def sampleNet : Net :=
  { Parse := fun s =>
      match url.getScheme s with
      | .error e => .error ("parse \"" ++ s ++ "\": " ++ e)
      | .ok _ => .ok s,
    NewRequest := fun method _ =>
      if method = "G T" then some "net/http: invalid method \"G T\"" else none,
    Do := fun req =>
      match url.getScheme req.URL with
      | .error e => .error (clientError req.Method req.URL e)
      | .ok (scheme, _) =>
        if scheme ≠ "http" ∧ scheme ≠ "https" then
          .error (clientError req.Method req.URL
            ("unsupported protocol scheme \"" ++ scheme ++ "\""))
        else if req.URL = "http://down.example/" then
          .error (clientError req.Method req.URL "dial tcp: connection refused")
        else if req.URL = "http://odd.example/" then .ok oddResponse
        else .ok sampleResponse }

/-- A request with the given method, origin and `url` values; it carries two
`Access-Control-Request-Headers` lines. -/
def sampleRequest (method origin : String) (urls : List String) : Request :=
  { Method := method,
    Header := [("Origin", [origin]), ("Host", ["localhost:8111"]),
      ("Accept", ["text/html", "application/json"]),
      ("Access-Control-Request-Headers", ["X-Token", "X-Trace"])],
    Query := [("url", urls)],
    Body := [104, 105] }

/-- The configured origin. -/
def goodOrigin : String := "https://debridui-alt.vercel.app"

/-- An origin the configured list does not hold. -/
def badOrigin : String := "https://evil.example"

/-! ## Header maps: lemmas -/

theorem Header.index_store (h : Header) (k k1 : String) (vv : List String) :
    Header.index (Header.store h k vv) k1 = if k1 = k then vv else Header.index h k1 := by
  induction h with
  | nil =>
    by_cases e : k = k1
    · subst e; simp [Header.store, Header.index]
    · have e1 : ¬ k1 = k := fun x => e x.symm
      simp [Header.store, Header.index, e, e1]
  | cons p rest ih =>
    obtain ⟨k0, v0⟩ := p
    by_cases e0 : k0 = k
    · subst e0
      by_cases e : k0 = k1
      · subst e; simp [Header.store, Header.index]
      · have e1 : ¬ k1 = k0 := fun x => e x.symm
        simp [Header.store, Header.index, e, e1]
    · by_cases e : k0 = k1
      · subst e; simp [Header.store, Header.index, e0]
      · simp [Header.store, Header.index, e0, e, ih]

theorem Header.index_delete (h : Header) (k k1 : String) :
    Header.index (Header.delete h k) k1 = if k1 = k then [] else Header.index h k1 := by
  induction h with
  | nil => simp [Header.delete, Header.index]
  | cons p rest ih =>
    obtain ⟨k0, v0⟩ := p
    by_cases e0 : k0 = k
    · subst e0
      by_cases e : k0 = k1
      · subst e; simp [Header.delete, Header.index, ih]
      · have e1 : ¬ k1 = k0 := fun x => e x.symm
        simp [Header.delete, Header.index, e, e1, ih]
    · by_cases e : k0 = k1
      · subst e; simp [Header.delete, Header.index, e0]
      · simp [Header.delete, Header.index, e0, e, ih]

theorem Header.index_eq_nil_of_not_mem (h : Header) (k : String)
    (hk : k ∉ Header.keys h) : Header.index h k = [] := by
  induction h with
  | nil => rfl
  | cons p rest ih =>
    obtain ⟨k0, v0⟩ := p
    simp only [Header.keys, List.map_cons, List.mem_cons, not_or] at hk
    have e : ¬ k0 = k := fun x => hk.1 x.symm
    simp only [Header.index, e, if_false]
    exact ih hk.2

theorem index_addValues (h : Header) (k k1 : String) (vv : List String)
    (hk : textproto.CanonicalMIMEHeaderKey k = k) :
    Header.index (addValues h k vv) k1 =
      if k1 = k then Header.index h k ++ vv else Header.index h k1 := by
  induction vv generalizing h with
  | nil => by_cases e : k1 = k <;> simp [addValues, e]
  | cons v vs ih =>
    simp only [addValues]
    rw [ih]
    simp only [Header.Add, hk, Header.index_store]
    by_cases e : k1 = k <;> simp [e]

/-- The shape both copy loops share: keys accepted by `skip` are left out. -/
theorem index_copy_loop (skip : String → Bool) (copy : Header → Header → Header)
    (hnil : ∀ dst, copy [] dst = dst)
    (hcons : ∀ k vv rest dst, copy ((k, vv) :: rest) dst =
      if skip k = true then copy rest dst else copy rest (addValues dst k vv))
    (src : Header) (hsrc : Header.WellFormed src) (dst : Header) (k1 : String) :
    Header.index (copy src dst) k1 =
      Header.index dst k1 ++ (if skip k1 = true then [] else Header.index src k1) := by
  induction src generalizing dst with
  | nil => simp [hnil, Header.index]
  | cons p rest ih =>
    obtain ⟨k, vv⟩ := p
    obtain ⟨hnd, hcan⟩ := hsrc
    simp only [Header.keys, List.map_cons, List.nodup_cons] at hnd
    have hrest : Header.WellFormed rest :=
      ⟨hnd.2, fun x hx => hcan x (by simp only [Header.keys, List.map_cons]; exact List.mem_cons_of_mem _ hx)⟩
    have hk : textproto.CanonicalMIMEHeaderKey k = k :=
      hcan k (by simp [Header.keys])
    have hnil1 : Header.index rest k = [] := Header.index_eq_nil_of_not_mem rest k hnd.1
    rw [hcons]
    by_cases hs : skip k = true
    · simp only [hs, if_true]
      rw [ih hrest]
      by_cases e : k = k1
      · subst e; simp [hs]
      · simp [Header.index, e]
    · simp only [hs]
      rw [if_neg (by simp), ih hrest, index_addValues _ _ _ _ hk]
      by_cases e : k = k1
      · subst e; simp [Header.index, hs, hnil1]
      · have e1 : ¬ k1 = k := fun x => e x.symm
        simp [Header.index, e, e1]

theorem index_copyRequestHeaders (src : Header) (hsrc : Header.WellFormed src)
    (dst : Header) (k1 : String) :
    Header.index (copyRequestHeaders src dst) k1 =
      Header.index dst k1 ++
        (if strings.ToLower k1 = "host" then [] else Header.index src k1) := by
  have h := index_copy_loop (fun k => decide (strings.ToLower k = "host")) copyRequestHeaders
    (fun dst => by simp [copyRequestHeaders])
    (fun k vv rest dst => by simp [copyRequestHeaders]) src hsrc dst k1
  simpa using h

theorem index_copyResponseHeaders (src : Header) (hsrc : Header.WellFormed src)
    (dst : Header) (k1 : String) :
    Header.index (copyResponseHeaders src dst) k1 =
      Header.index dst k1 ++
        (if strings.HasPrefix (strings.ToLower k1) "access-control-" = true then []
          else Header.index src k1) := by
  exact index_copy_loop (fun k => strings.HasPrefix (strings.ToLower k) "access-control-")
    copyResponseHeaders (fun dst => by simp [copyResponseHeaders])
    (fun k vv rest dst => by simp [copyResponseHeaders]) src hsrc dst k1

/-! ## Canonical keys keep their lower-case form -/

theorem toNat_ofNat_small (n : Nat) (h : n < 55296) : (Char.ofNat n).toNat = n := by
  have hv : n.isValidChar := Or.inl h
  unfold Char.ofNat
  rw [dif_pos hv]
  simp [Char.ofNatAux, Char.toNat, UInt32.toNat]

theorem toLower_toUpper (c : Char) : Char.toLower (Char.toUpper c) = Char.toLower c := by
  unfold Char.toUpper
  simp only []
  by_cases h : c.toNat ≥ 97 ∧ c.toNat ≤ 122
  · rw [if_pos h]
    have hv : (Char.ofNat (c.toNat - 32)).toNat = c.toNat - 32 :=
      toNat_ofNat_small _ (by omega)
    unfold Char.toLower
    simp only [hv]
    have h1 : c.toNat - 32 ≥ 65 ∧ c.toNat - 32 ≤ 90 := by omega
    have h2 : ¬ (c.toNat ≥ 65 ∧ c.toNat ≤ 90) := by omega
    rw [if_pos h1, if_neg h2]
    have h3 : c.toNat - 32 + 32 = c.toNat := by omega
    rw [h3, Char.ofNat_toNat]
  · rw [if_neg h]

theorem toLower_toLower (c : Char) : Char.toLower (Char.toLower c) = Char.toLower c := by
  by_cases h : c.toNat ≥ 65 ∧ c.toNat ≤ 90
  · have hv : (Char.ofNat (c.toNat + 32)).toNat = c.toNat + 32 :=
      toNat_ofNat_small _ (by omega)
    have h2 : ¬ (c.toNat + 32 ≥ 65 ∧ c.toNat + 32 ≤ 90) := by omega
    have e : Char.toLower c = Char.ofNat (c.toNat + 32) := by
      unfold Char.toLower
      simp only []
      rw [if_pos h]
    rw [e]
    unfold Char.toLower
    simp only [hv]
    rw [if_neg h2]
  · have e : Char.toLower c = c := by
      unfold Char.toLower
      simp only []
      rw [if_neg h]
    rw [e, e]

theorem map_toLower_canonicalize (upper : Bool) (l : List Char) :
    (textproto.canonicalize upper l).map Char.toLower = l.map Char.toLower := by
  induction l generalizing upper with
  | nil => rfl
  | cons c cs ih =>
    simp only [textproto.canonicalize, List.map_cons, ih]
    congr 1
    split
    · exact toLower_toUpper c
    · split
      · exact toLower_toLower c
      · rfl

theorem ToLower_CanonicalMIMEHeaderKey (k : String) :
    strings.ToLower (textproto.CanonicalMIMEHeaderKey k) = strings.ToLower k := by
  unfold textproto.CanonicalMIMEHeaderKey
  split
  · simp only [strings.ToLower, map_toLower_canonicalize]
  · rfl

theorem index_addValues_canonical (h : Header) (k k1 : String) (vv : List String) :
    Header.index (addValues h k vv) k1 =
      if k1 = textproto.CanonicalMIMEHeaderKey k
        then Header.index h (textproto.CanonicalMIMEHeaderKey k) ++ vv
        else Header.index h k1 := by
  induction vv generalizing h with
  | nil => by_cases e : k1 = textproto.CanonicalMIMEHeaderKey k <;> simp [addValues, e]
  | cons v vs ih =>
    simp only [addValues]
    rw [ih]
    simp only [Header.Add, Header.index_store]
    by_cases e : k1 = textproto.CanonicalMIMEHeaderKey k <;> simp [e]

/-- No key of the CORS family is written by the response copy loop, whatever the
upstream header map holds. -/
theorem index_copyResponseHeaders_cors (src dst : Header) (k1 : String)
    (hk1 : strings.HasPrefix (strings.ToLower k1) "access-control-" = true) :
    Header.index (copyResponseHeaders src dst) k1 = Header.index dst k1 := by
  induction src generalizing dst with
  | nil => rfl
  | cons p rest ih =>
    obtain ⟨k, vv⟩ := p
    simp only [copyResponseHeaders]
    split
    · exact ih dst
    · rename_i hs
      rw [ih, index_addValues_canonical]
      have e : ¬ k1 = textproto.CanonicalMIMEHeaderKey k := by
        intro x
        apply hs
        rw [← ToLower_CanonicalMIMEHeaderKey k, ← x]
        exact hk1
      rw [if_neg e]

/-! ## The reply of `http.Error` -/

theorem stringBytes_append (a b : String) :
    stringBytes (a ++ b) = stringBytes a ++ stringBytes b := by
  simp [stringBytes, String.data_append, List.flatMap_append]

theorem stringBytes_line_ne_nil (msg : String) : stringBytes (msg ++ "\n") ≠ [] := by
  have h : stringBytes "\n" = [10] := by decide
  rw [stringBytes_append, h]
  simp

theorem canonical_contentLength :
    textproto.CanonicalMIMEHeaderKey "Content-Length" = "Content-Length" := by decide

theorem canonical_contentType :
    textproto.CanonicalMIMEHeaderKey "Content-Type" = "Content-Type" := by decide

theorem canonical_nosniff :
    textproto.CanonicalMIMEHeaderKey "X-Content-Type-Options" = "X-Content-Type-Options" := by
  decide

theorem canonical_allowOrigin :
    textproto.CanonicalMIMEHeaderKey "Access-Control-Allow-Origin" =
      "Access-Control-Allow-Origin" := by decide

theorem canonical_allowMethods :
    textproto.CanonicalMIMEHeaderKey "Access-Control-Allow-Methods" =
      "Access-Control-Allow-Methods" := by decide

theorem canonical_allowHeaders :
    textproto.CanonicalMIMEHeaderKey "Access-Control-Allow-Headers" =
      "Access-Control-Allow-Headers" := by decide

theorem canonical_maxAge :
    textproto.CanonicalMIMEHeaderKey "Access-Control-Max-Age" =
      "Access-Control-Max-Age" := by decide

theorem canonical_vary : textproto.CanonicalMIMEHeaderKey "Vary" = "Vary" := by decide

theorem canonical_origin : textproto.CanonicalMIMEHeaderKey "Origin" = "Origin" := by decide

theorem canonical_requestHeaders :
    textproto.CanonicalMIMEHeaderKey "Access-Control-Request-Headers" =
      "Access-Control-Request-Headers" := by decide

/-- `Header.Get` reads the first value the map holds under the canonical key. -/
theorem Header.Get_eq_headD (h : Header) (key : String) :
    Header.Get h key = (Header.index h (textproto.CanonicalMIMEHeaderKey key)).headD "" := by
  unfold Header.Get
  cases Header.index h (textproto.CanonicalMIMEHeaderKey key) <;> rfl

/-- What `http.Error` sends, with a valid code, on a writer nothing was sent on yet. -/
theorem http_Error_unsent (w : ResponseWriter) (msg : String) (code : Nat)
    (hs : w.status = none) (hb : w.body = []) (hp : w.panicked = none)
    (hc : 100 ≤ code ∧ code ≤ 999) :
    (http.Error w msg code).status = some code ∧
    (http.Error w msg code).sentHeader =
      Header.store (Header.store (Header.delete w.header "Content-Length")
        "Content-Type" ["text/plain; charset=utf-8"]) "X-Content-Type-Options" ["nosniff"] ∧
    (http.Error w msg code).body = stringBytes (msg ++ "\n") := by
  have hc1 : ¬ (code < 100 ∨ code > 999) := by omega
  simp [http.Error, ResponseWriter.WriteHeader, ResponseWriter.Write, hs, hb, hp, hc1,
    Header.Set, Header.Del, canonical_contentLength, canonical_contentType,
    canonical_nosniff]

theorem plainTextError_of_unsent (w : ResponseWriter) (msg : String) (code : Nat)
    (hs : w.status = none) (hb : w.body = []) (hp : w.panicked = none)
    (hc : 100 ≤ code ∧ code ≤ 999) :
    PlainTextError (http.Error w msg code) code msg := by
  obtain ⟨h1, h2, h3⟩ := http_Error_unsent w msg code hs hb hp hc
  refine ⟨h1, ?_, h3, ?_⟩
  · rw [h2, Header.index_store, Header.index_store]
    simp
  · rw [h3]
    exact stringBytes_line_ne_nil msg

/-! ## The forwarding path, step by step -/

/-- The outcome of a forward whose upstream call succeeds. -/
theorem serve_upstream_success (net : Net) (allowList : List String) (r : Request)
    (u : String) (resp : Response)
    (hm : r.Method ≠ "OPTIONS") (ht : Values.Get r.Query "url" ≠ "")
    (ha : originAllowed allowList (Header.Get r.Header "Origin") = true)
    (hp : net.Parse (Values.Get r.Query "url") = .ok u)
    (hn : net.NewRequest r.Method u = none)
    (hd : net.Do (upstreamRequest r u) = .ok resp)
    (hcode : 100 ≤ resp.StatusCode ∧ resp.StatusCode ≤ 999) :
    (serve net allowList r).w.status = some resp.StatusCode ∧
    (serve net allowList r).w.body = resp.Body ∧
    (serve net allowList r).w.sentHeader =
      Header.store (Header.store (Header.store (copyResponseHeaders resp.Header [])
        "Access-Control-Allow-Origin"
          [allowOriginValue allowList (Header.Get r.Header "Origin")])
        "Access-Control-Allow-Methods" [allowMethods]) "Vary" ["Origin"] ∧
    (serve net allowList r).calls = [upstreamRequest r u] := by
  unfold upstreamRequest at hd
  have hc1 : ¬ (resp.StatusCode < 100 ∨ resp.StatusCode > 999) := by omega
  simp [serve, corsProxyHandler, http.MethodOptions, hm, ht, ha, hp, hn, hd, hc1,
    ResponseWriter.WriteHeader, ResponseWriter.Write, ResponseWriter.fresh,
    ResponseWriter.setHeader, Header.Set, canonical_allowOrigin, canonical_allowMethods,
    canonical_vary, upstreamRequest]

/-- The requests passed to `client.Do` once the upstream request is built. -/
theorem serve_calls (net : Net) (allowList : List String) (r : Request) (u : String)
    (hm : r.Method ≠ "OPTIONS") (ht : Values.Get r.Query "url" ≠ "")
    (ha : originAllowed allowList (Header.Get r.Header "Origin") = true)
    (hp : net.Parse (Values.Get r.Query "url") = .ok u)
    (hn : net.NewRequest r.Method u = none) :
    (serve net allowList r).calls = [upstreamRequest r u] := by
  simp only [serve, corsProxyHandler, http.MethodOptions, hm, ht, ha, hp, hn, if_false,
    Bool.not_true, Bool.false_eq_true]
  split <;> rfl

/-- The outcome of a forward whose upstream answers with a status code that
`WriteHeader` refuses: the handler panics and nothing is sent. -/
theorem serve_upstream_invalid_status (net : Net) (allowList : List String) (r : Request)
    (u : String) (resp : Response)
    (hm : r.Method ≠ "OPTIONS") (ht : Values.Get r.Query "url" ≠ "")
    (ha : originAllowed allowList (Header.Get r.Header "Origin") = true)
    (hp : net.Parse (Values.Get r.Query "url") = .ok u)
    (hn : net.NewRequest r.Method u = none)
    (hd : net.Do (upstreamRequest r u) = .ok resp)
    (hcode : resp.StatusCode < 100 ∨ resp.StatusCode > 999) :
    (serve net allowList r).w.status = none ∧
    (serve net allowList r).w.sentHeader = [] ∧
    (serve net allowList r).w.body = [] ∧
    (serve net allowList r).w.panicked =
      some ("invalid WriteHeader code " ++ toString resp.StatusCode) := by
  unfold upstreamRequest at hd
  simp [serve, corsProxyHandler, http.MethodOptions, hm, ht, ha, hp, hn, hd, hcode,
    ResponseWriter.WriteHeader, ResponseWriter.Write, ResponseWriter.fresh,
    ResponseWriter.setHeader]

/-- The outcome of a forward whose upstream call fails. -/
theorem serve_upstream_failure (net : Net) (allowList : List String) (r : Request)
    (u e : String)
    (hm : r.Method ≠ "OPTIONS") (ht : Values.Get r.Query "url" ≠ "")
    (ha : originAllowed allowList (Header.Get r.Header "Origin") = true)
    (hp : net.Parse (Values.Get r.Query "url") = .ok u)
    (hn : net.NewRequest r.Method u = none)
    (hd : net.Do (upstreamRequest r u) = .error e) :
    serve net allowList r =
      ⟨http.Error (ResponseWriter.fresh.setHeader "Access-Control-Allow-Origin"
          (allowOriginValue allowList (Header.Get r.Header "Origin")))
        ("Proxy error: " ++ e) 500, [upstreamRequest r u]⟩ := by
  unfold upstreamRequest at hd
  simp [serve, corsProxyHandler, http.MethodOptions, hm, ht, ha, hp, hn, hd,
    http.StatusInternalServerError, upstreamRequest]

/-- The outcome when `http.NewRequest` fails. -/
theorem serve_request_construction_failure (net : Net) (allowList : List String)
    (r : Request) (u e : String)
    (hm : r.Method ≠ "OPTIONS") (ht : Values.Get r.Query "url" ≠ "")
    (ha : originAllowed allowList (Header.Get r.Header "Origin") = true)
    (hp : net.Parse (Values.Get r.Query "url") = .ok u)
    (hn : net.NewRequest r.Method u = some e) :
    serve net allowList r =
      ⟨http.Error ResponseWriter.fresh "Failed to create proxy request" 500, []⟩ := by
  simp [serve, corsProxyHandler, http.MethodOptions, hm, ht, ha, hp, hn,
    http.StatusInternalServerError]

/-- The outcome when `url.Parse` fails. -/
theorem serve_parse_failure (net : Net) (allowList : List String) (r : Request)
    (e : String)
    (hm : r.Method ≠ "OPTIONS") (ht : Values.Get r.Query "url" ≠ "")
    (ha : originAllowed allowList (Header.Get r.Header "Origin") = true)
    (hp : net.Parse (Values.Get r.Query "url") = .error e) :
    serve net allowList r =
      ⟨http.Error ResponseWriter.fresh "Invalid target URL" 400, []⟩ := by
  simp [serve, corsProxyHandler, http.MethodOptions, hm, ht, ha, hp, http.StatusBadRequest]

/-- The outcome when the origin is rejected on the forwarding path. -/
theorem serve_origin_rejected (net : Net) (allowList : List String) (r : Request)
    (hm : r.Method ≠ "OPTIONS") (ht : Values.Get r.Query "url" ≠ "")
    (hrej : originAllowed allowList (Header.Get r.Header "Origin") = false) :
    serve net allowList r =
      ⟨http.Error ResponseWriter.fresh "Origin not allowed" 403, []⟩ := by
  simp [serve, corsProxyHandler, http.MethodOptions, hm, ht, hrej, http.StatusForbidden]

/-- The outcome when the `url` value is empty: the demo page. -/
theorem serve_demo (net : Net) (allowList : List String) (r : Request)
    (hm : r.Method ≠ "OPTIONS") (ht : Values.Get r.Query "url" = "") :
    (serve net allowList r).w.status = some 200 ∧
    (serve net allowList r).w.body = stringBytes demoHTML ∧
    (serve net allowList r).w.sentHeader = [] ∧
    (serve net allowList r).calls = [] := by
  simp [serve, corsProxyHandler, http.MethodOptions, hm, ht, ResponseWriter.WriteHeader,
    ResponseWriter.Write, ResponseWriter.fresh, http.StatusOK]

theorem Values.Get_of_not_Has (q : Values) (k : String) (h : Values.Has q k = false) :
    Values.Get q k = "" := by
  induction q with
  | nil => rfl
  | cons p rest ih =>
    obtain ⟨k0, vv⟩ := p
    by_cases e : k0 = k
    · simp [Values.Has, e] at h
    · simp only [Values.Has, e, if_false] at h
      simp only [Values.Get, e, if_false]
      exact ih h

/-- The outcome of a rejected preflight. -/
theorem serve_preflight_rejected (net : Net) (allowList : List String) (r : Request)
    (hm : r.Method = "OPTIONS")
    (hrej : originAllowed allowList (Header.Get r.Header "Origin") = false) :
    (serve net allowList r).w.status = some 403 ∧ (serve net allowList r).w.body = [] := by
  simp [serve, corsProxyHandler, http.MethodOptions, hm, hrej, ResponseWriter.WriteHeader,
    ResponseWriter.fresh, http.StatusForbidden]

/-! ## Origin check and allow-origin value -/

theorem originAllowedLoop_iff (origin : String) (l : List String) :
    originAllowedLoop origin l = true ↔ origin ∈ l ∨ "*" ∈ l := by
  induction l with
  | nil => simp [originAllowedLoop]
  | cons o rest ih =>
    simp only [originAllowedLoop, List.mem_cons]
    by_cases h : o = "*" ∨ o = origin
    · simp only [h, if_true, true_iff]
      rcases h with h | h
      · exact Or.inr (Or.inl h.symm)
      · exact Or.inl (Or.inl h.symm)
    · simp only [h, if_false, ih]
      push_neg at h
      constructor
      · rintro (h1 | h1)
        · exact Or.inl (Or.inr h1)
        · exact Or.inr (Or.inr h1)
      · rintro ((h1 | h1) | (h1 | h1))
        · exact absurd h1.symm h.2
        · exact Or.inl h1
        · exact absurd h1.symm h.1
        · exact Or.inr h1

/-- C1: `originAllowed` holds exactly for the empty origin, an origin listed literally,
or any origin when the list holds `"*"`; the empty origin passes for every list. -/
theorem originAllowed_iff (allowList : List String) (origin : String) :
    (originAllowed allowList origin = true ↔
      origin = "" ∨ origin ∈ allowList ∨ "*" ∈ allowList) ∧
    originAllowed allowList "" = true ∧ originAllowed [] "" = true := by
  refine ⟨?_, by simp [originAllowed], by simp [originAllowed]⟩
  unfold originAllowed
  by_cases h : origin = ""
  · simp [h]
  · simp only [h, if_false, false_or]
    exact originAllowedLoop_iff origin allowList

/-- C6: `allowOriginValue` is `"*"` when the list holds `"*"` anywhere, and the origin
unchanged otherwise. -/
theorem allowOriginValue_eq (allowList : List String) (origin : String) :
    allowOriginValue allowList origin = if "*" ∈ allowList then "*" else origin := by
  induction allowList with
  | nil => simp [allowOriginValue]
  | cons o rest ih =>
    simp only [allowOriginValue, List.mem_cons]
    by_cases h : o = "*"
    · simp [h]
    · have h1 : ¬ ("*" = o) := fun e => h e.symm
      simp only [h, h1, if_false, false_or, ih]

/-! ## The handler -/

/-- C2: a request whose origin fails the check is answered 403 without any upstream
request, on the preflight path with no header and no body at all, on the forwarding path
(a non-`OPTIONS` request with a non-empty `url`) with the plain-text headers of
`http.Error` only, so without `Access-Control-Allow-Origin`.  An origin that fails the
check is never empty. -/
theorem forbidden_when_origin_rejected (net : Net) (allowList : List String) (r : Request)
    (hrej : originAllowed allowList (Header.Get r.Header "Origin") = false) :
    Header.Get r.Header "Origin" ≠ "" ∧
    (r.Method = "OPTIONS" →
      (serve net allowList r).w.status = some 403 ∧
      (serve net allowList r).w.sentHeader = [] ∧
      (serve net allowList r).w.body = [] ∧
      (serve net allowList r).calls = []) ∧
    (r.Method ≠ "OPTIONS" → Values.Get r.Query "url" ≠ "" →
      (serve net allowList r).w.status = some 403 ∧
      (serve net allowList r).w.sentHeader =
        [("Content-Type", ["text/plain; charset=utf-8"]),
          ("X-Content-Type-Options", ["nosniff"])] ∧
      Header.index (serve net allowList r).w.sentHeader "Access-Control-Allow-Origin" = [] ∧
      (serve net allowList r).calls = []) := by
  refine ⟨?_, ?_, ?_⟩
  · intro h
    rw [h] at hrej
    simp [originAllowed] at hrej
  · intro hm
    simp [serve, corsProxyHandler, http.MethodOptions, hm, hrej, ResponseWriter.WriteHeader,
      ResponseWriter.fresh, http.StatusForbidden]
  · intro hm ht
    have hE := http_Error_unsent ResponseWriter.fresh "Origin not allowed" 403 rfl rfl rfl (by decide)
    have hout : serve net allowList r =
        ⟨http.Error ResponseWriter.fresh "Origin not allowed" 403, []⟩ := by
      simp [serve, corsProxyHandler, http.MethodOptions, hm, ht, hrej, http.StatusForbidden]
    rw [hout]
    refine ⟨hE.1, ?_, ?_, rfl⟩
    · rw [hE.2.1]; simp [ResponseWriter.fresh, Header.delete, Header.store]
    · rw [hE.2.1]; simp [ResponseWriter.fresh, Header.delete, Header.store, Header.index]

theorem forbidden_when_origin_rejected_witness :
    (serve sampleNet allowedOrigins (sampleRequest "OPTIONS" badOrigin ["http://a/"])).w.status
      = some 403 ∧
    (serve sampleNet allowedOrigins (sampleRequest "GET" badOrigin ["http://a/"])).w.status
      = some 403 :=
  ⟨((forbidden_when_origin_rejected sampleNet allowedOrigins
      (sampleRequest "OPTIONS" badOrigin ["http://a/"]) (by decide)).2.1 (by decide)).1,
   ((forbidden_when_origin_rejected sampleNet allowedOrigins
      (sampleRequest "GET" badOrigin ["http://a/"]) (by decide)).2.2
        (by decide) (by decide)).1⟩

/-- C3, as stated, fails: of two `Access-Control-Request-Headers` lines only the first
is mirrored, so the request's value is not echoed verbatim. -/
theorem preflight_echoes_first_value_only :
    Header.index (sampleRequest "OPTIONS" goodOrigin []).Header
      "Access-Control-Request-Headers" = ["X-Token", "X-Trace"] ∧
    (serve sampleNet allowedOrigins (sampleRequest "OPTIONS" goodOrigin [])).w.status
      = some 204 ∧
    Header.index (serve sampleNet allowedOrigins
      (sampleRequest "OPTIONS" goodOrigin [])).w.sentHeader "Access-Control-Allow-Headers"
      = ["X-Token"] :=
  ⟨by decide, by decide, by decide⟩

/-- C3, amended: an `OPTIONS` request whose origin passes the check, with any query
string, is answered 204 with an empty body and exactly the four preflight headers, and no
upstream request is made.  The origin is the first value the request's header map holds
under `Origin`, and the allow-headers value is the first value it holds under
`Access-Control-Request-Headers`, each the empty string when there is none. -/
theorem preflight_allowed (net : Net) (allowList : List String) (r : Request)
    (hm : r.Method = "OPTIONS")
    (ha : originAllowed allowList ((Header.index r.Header "Origin").headD "") = true) :
    (serve net allowList r).w.status = some 204 ∧
    (serve net allowList r).w.body = [] ∧
    (serve net allowList r).w.sentHeader =
      [("Access-Control-Allow-Origin",
          [allowOriginValue allowList ((Header.index r.Header "Origin").headD "")]),
        ("Access-Control-Allow-Methods", ["GET,HEAD,POST,PUT,DELETE,PATCH,OPTIONS"]),
        ("Access-Control-Allow-Headers",
          [(Header.index r.Header "Access-Control-Request-Headers").headD ""]),
        ("Access-Control-Max-Age", ["86400"])] ∧
    (serve net allowList r).calls = [] ∧
    (serve net allowList r).w.panicked = none := by
  have ho : Header.Get r.Header "Origin" = (Header.index r.Header "Origin").headD "" := by
    rw [Header.Get_eq_headD, canonical_origin]
  have hh : Header.Get r.Header "Access-Control-Request-Headers" =
      (Header.index r.Header "Access-Control-Request-Headers").headD "" := by
    rw [Header.Get_eq_headD, canonical_requestHeaders]
  rw [← ho] at ha
  rw [← ho, ← hh]
  simp [serve, corsProxyHandler, http.MethodOptions, hm, ha, ResponseWriter.WriteHeader,
    ResponseWriter.fresh, ResponseWriter.setHeader, http.StatusNoContent, Header.Set,
    Header.store, canonical_allowOrigin, canonical_allowMethods, canonical_allowHeaders,
    canonical_maxAge, allowMethods]

theorem preflight_allowed_witness :
    (serve sampleNet allowedOrigins (sampleRequest "OPTIONS" goodOrigin [])).w.status
      = some 204 ∧
    (serve sampleNet allowedOrigins (sampleRequest "OPTIONS" goodOrigin [])).w.sentHeader =
      [("Access-Control-Allow-Origin", ["https://debridui-alt.vercel.app"]),
        ("Access-Control-Allow-Methods", ["GET,HEAD,POST,PUT,DELETE,PATCH,OPTIONS"]),
        ("Access-Control-Allow-Headers", ["X-Token"]),
        ("Access-Control-Max-Age", ["86400"])] :=
  have h := preflight_allowed sampleNet allowedOrigins
    (sampleRequest "OPTIONS" goodOrigin []) (by decide) (by decide)
  ⟨h.1, h.2.2.1.trans (by decide)⟩

/-- C7, as stated, fails: `not-a-url` is not an absolute URL, yet `url.Parse` accepts it;
the request is passed to `client.Do` and the reply is 500, not 400. -/
theorem schemeless_target_reaches_upstream :
    url.isAbs "not-a-url" = false ∧
    sampleNet.Parse "not-a-url" = .ok "not-a-url" ∧
    (serve sampleNet allowedOrigins (sampleRequest "GET" goodOrigin ["not-a-url"])).w.status
      = some 500 ∧
    (serve sampleNet allowedOrigins (sampleRequest "GET" goodOrigin ["not-a-url"])).calls
      = [upstreamRequest (sampleRequest "GET" goodOrigin ["not-a-url"]) "not-a-url"] :=
  ⟨by decide, rfl, by decide, by decide⟩

/-- C7, amended: a non-`OPTIONS` request with an allowed origin whose non-empty `url`
value makes `url.Parse` fail is answered 400 with the plain-text body `Invalid target URL`, and no
upstream request is made. -/
theorem bad_request_when_target_unparsable (net : Net) (allowList : List String)
    (r : Request) (e : String)
    (hm : r.Method ≠ "OPTIONS") (ht : Values.Get r.Query "url" ≠ "")
    (ha : originAllowed allowList (Header.Get r.Header "Origin") = true)
    (hp : net.Parse (Values.Get r.Query "url") = .error e) :
    PlainTextError (serve net allowList r).w 400 "Invalid target URL" ∧
    (serve net allowList r).calls = [] := by
  have hout : serve net allowList r =
      ⟨http.Error ResponseWriter.fresh "Invalid target URL" 400, []⟩ := by
    simp [serve, corsProxyHandler, http.MethodOptions, hm, ht, ha, hp, http.StatusBadRequest]
  rw [hout]
  exact ⟨plainTextError_of_unsent _ _ _ rfl rfl rfl (by decide), rfl⟩

theorem bad_request_when_target_unparsable_witness :
    PlainTextError (serve sampleNet allowedOrigins
        (sampleRequest "GET" goodOrigin ["://bad"])).w 400 "Invalid target URL" ∧
    (serve sampleNet allowedOrigins (sampleRequest "GET" goodOrigin ["://bad"])).calls = [] :=
  bad_request_when_target_unparsable sampleNet allowedOrigins
    (sampleRequest "GET" goodOrigin ["://bad"]) "parse \"://bad\": missing protocol scheme"
    (by decide) (by decide) (by decide) rfl

/-- C4, as stated, fails: the upstream call succeeds with the status line `099`, and
the handler panics in `WriteHeader` without sending status, header or body. -/
theorem invalid_upstream_status_panics :
    sampleNet.Do (upstreamRequest (sampleRequest "GET" goodOrigin ["http://odd.example/"])
      "http://odd.example/") = .ok oddResponse ∧
    oddResponse.StatusCode = 99 ∧
    (serve sampleNet allowedOrigins
      (sampleRequest "GET" goodOrigin ["http://odd.example/"])).w.status = none ∧
    (serve sampleNet allowedOrigins
      (sampleRequest "GET" goodOrigin ["http://odd.example/"])).w.sentHeader = [] ∧
    (serve sampleNet allowedOrigins
      (sampleRequest "GET" goodOrigin ["http://odd.example/"])).w.body = [] ∧
    (serve sampleNet allowedOrigins
      (sampleRequest "GET" goodOrigin ["http://odd.example/"])).w.panicked
      = some "invalid WriteHeader code 99" :=
  ⟨rfl, rfl, by decide, by decide, by decide, by decide⟩

/-- C4, amended: a forward whose upstream call succeeds with a status code from 100 to
999 answers with the upstream status code and the upstream body; under every key of the CORS family the response holds only the
proxy's own `Access-Control-Allow-Origin` and `Access-Control-Allow-Methods` values,
whatever the upstream sent under such keys; `Vary` is `Origin`. -/
theorem forward_success (net : Net) (allowList : List String) (r : Request)
    (u : String) (resp : Response)
    (hm : r.Method ≠ "OPTIONS") (ht : Values.Get r.Query "url" ≠ "")
    (ha : originAllowed allowList (Header.Get r.Header "Origin") = true)
    (hp : net.Parse (Values.Get r.Query "url") = .ok u)
    (hn : net.NewRequest r.Method u = none)
    (hd : net.Do (upstreamRequest r u) = .ok resp)
    (hcode : 100 ≤ resp.StatusCode ∧ resp.StatusCode ≤ 999) :
    (serve net allowList r).w.status = some resp.StatusCode ∧
    (serve net allowList r).w.body = resp.Body ∧
    (∀ k, strings.HasPrefix (strings.ToLower k) "access-control-" = true →
      Header.index (serve net allowList r).w.sentHeader k =
        if k = "Access-Control-Allow-Origin" then
          [allowOriginValue allowList (Header.Get r.Header "Origin")]
        else if k = "Access-Control-Allow-Methods" then
          ["GET,HEAD,POST,PUT,DELETE,PATCH,OPTIONS"]
        else []) ∧
    Header.index (serve net allowList r).w.sentHeader "Vary" = ["Origin"] ∧
    (serve net allowList r).calls = [upstreamRequest r u] := by
  obtain ⟨h1, h2, h3, h4⟩ := serve_upstream_success net allowList r u resp hm ht ha hp hn hd hcode
  refine ⟨h1, h2, ?_, ?_, h4⟩
  · intro k hk
    have hv : ¬ k = "Vary" := by
      intro e
      rw [e] at hk
      revert hk
      decide
    rw [h3, Header.index_store, if_neg hv, Header.index_store, Header.index_store,
      index_copyResponseHeaders_cors _ _ _ hk]
    by_cases e1 : k = "Access-Control-Allow-Origin"
    · subst e1; simp
    · by_cases e2 : k = "Access-Control-Allow-Methods"
      · subst e2; simp [allowMethods]
      · simp [e1, e2, Header.index]
  · rw [h3, Header.index_store]
    simp

theorem forward_success_witness :
    (serve sampleNet allowedOrigins (sampleRequest "POST" goodOrigin ["http://a/"])).w.status
      = some 201 ∧
    Header.index (serve sampleNet allowedOrigins
        (sampleRequest "POST" goodOrigin ["http://a/"])).w.sentHeader
      "Access-Control-Allow-Origin" = [goodOrigin] :=
  have h := forward_success sampleNet allowedOrigins
    (sampleRequest "POST" goodOrigin ["http://a/"]) "http://a/" sampleResponse
    (by decide) (by decide) (by decide) rfl rfl rfl (by decide)
  ⟨h.1, (h.2.2.1 "Access-Control-Allow-Origin" (by decide)).trans (by decide)⟩

/-- C5: on a request that reaches the upstream call, with a header map as the server
hands it over, the upstream request holds nothing under a key that lower-cases to
`host`, and under every other key exactly the inbound values, in the inbound order, so
nothing under a key the inbound request did not have. -/
theorem upstream_request_headers (net : Net) (allowList : List String) (r : Request)
    (u : String)
    (hwf : Header.WellFormed r.Header)
    (hm : r.Method ≠ "OPTIONS") (ht : Values.Get r.Query "url" ≠ "")
    (ha : originAllowed allowList (Header.Get r.Header "Origin") = true)
    (hp : net.Parse (Values.Get r.Query "url") = .ok u)
    (hn : net.NewRequest r.Method u = none) :
    (serve net allowList r).calls = [upstreamRequest r u] ∧
    Header.index (upstreamRequest r u).Header "Host" = [] ∧
    ∀ k, Header.index (upstreamRequest r u).Header k =
      if strings.ToLower k = "host" then [] else Header.index r.Header k := by
  have hall : ∀ k, Header.index (upstreamRequest r u).Header k =
      if strings.ToLower k = "host" then [] else Header.index r.Header k := by
    intro k
    simp only [upstreamRequest]
    rw [index_copyRequestHeaders r.Header hwf [] k]
    simp [Header.index]
  refine ⟨?_, ?_, hall⟩
  · exact serve_calls net allowList r u hm ht ha hp hn
  · have hl : strings.ToLower "Host" = "host" := by decide
    rw [hall "Host", if_pos hl]

theorem upstream_request_headers_witness :
    Header.index (upstreamRequest (sampleRequest "GET" goodOrigin ["http://a/"])
      "http://a/").Header "Accept" = ["text/html", "application/json"] :=
  ((upstream_request_headers sampleNet allowedOrigins
    (sampleRequest "GET" goodOrigin ["http://a/"]) "http://a/"
    (by decide) (by decide) (by decide) (by decide) rfl rfl).2.2 "Accept").trans (by decide)

/-- C8, as stated, fails: the upstream `Vary` values do not start with
`access-control-`, yet the response carries `Origin` in their place. -/
theorem upstream_vary_replaced :
    sampleNet.Do (upstreamRequest (sampleRequest "GET" goodOrigin ["http://a/"]) "http://a/")
      = .ok sampleResponse ∧
    strings.HasPrefix (strings.ToLower "Vary") "access-control-" = false ∧
    Header.index sampleResponse.Header "Vary" = ["Accept-Encoding"] ∧
    Header.index (serve sampleNet allowedOrigins
      (sampleRequest "GET" goodOrigin ["http://a/"])).w.sentHeader "Vary" = ["Origin"] ∧
    Header.index (serve sampleNet allowedOrigins
      (sampleRequest "GET" goodOrigin ["http://a/"])).w.sentHeader "Vary" ≠
        Header.index sampleResponse.Header "Vary" :=
  ⟨rfl, by decide, by decide, by decide, by decide⟩

/-- C8, amended: after a successful forward with an upstream status code from 100 to
999, with an upstream header map as the client hands it over, the response holds `Origin` under `Vary`, the proxy's two CORS values,
nothing under any other key of the CORS family, and under every remaining key exactly
the upstream values in the upstream order. -/
theorem response_headers_after_forward (net : Net) (allowList : List String) (r : Request)
    (u : String) (resp : Response)
    (hwf : Header.WellFormed resp.Header)
    (hm : r.Method ≠ "OPTIONS") (ht : Values.Get r.Query "url" ≠ "")
    (ha : originAllowed allowList (Header.Get r.Header "Origin") = true)
    (hp : net.Parse (Values.Get r.Query "url") = .ok u)
    (hn : net.NewRequest r.Method u = none)
    (hd : net.Do (upstreamRequest r u) = .ok resp)
    (hcode : 100 ≤ resp.StatusCode ∧ resp.StatusCode ≤ 999) :
    ∀ k, Header.index (serve net allowList r).w.sentHeader k =
      if k = "Vary" then ["Origin"]
      else if k = "Access-Control-Allow-Methods" then
        ["GET,HEAD,POST,PUT,DELETE,PATCH,OPTIONS"]
      else if k = "Access-Control-Allow-Origin" then
        [allowOriginValue allowList (Header.Get r.Header "Origin")]
      else if strings.HasPrefix (strings.ToLower k) "access-control-" = true then []
      else Header.index resp.Header k := by
  intro k
  obtain ⟨_, _, h3, _⟩ :=
    serve_upstream_success net allowList r u resp hm ht ha hp hn hd hcode
  rw [h3, Header.index_store, Header.index_store, Header.index_store,
    index_copyResponseHeaders resp.Header hwf [] k]
  simp [Header.index, allowMethods]

theorem response_headers_after_forward_witness :
    Header.index (serve sampleNet allowedOrigins
      (sampleRequest "GET" goodOrigin ["http://a/"])).w.sentHeader "Set-Cookie"
        = ["a=1", "b=2"] :=
  (response_headers_after_forward sampleNet allowedOrigins
    (sampleRequest "GET" goodOrigin ["http://a/"]) "http://a/" sampleResponse
    (by decide) (by decide) (by decide) (by decide) rfl rfl rfl (by decide)
    "Set-Cookie").trans
    (by decide)

/-- C9, as stated, fails: a preflight from a rejected origin is answered 403 with an
empty body. -/
theorem preflight_rejection_has_empty_body :
    (sampleRequest "OPTIONS" badOrigin ["http://a/"]).Method = "OPTIONS" ∧
    originAllowed allowedOrigins
      (Header.Get (sampleRequest "OPTIONS" badOrigin ["http://a/"]).Header "Origin") = false ∧
    (serve sampleNet allowedOrigins
      (sampleRequest "OPTIONS" badOrigin ["http://a/"])).w.status = some 403 ∧
    (serve sampleNet allowedOrigins
      (sampleRequest "OPTIONS" badOrigin ["http://a/"])).w.body = [] :=
  ⟨by decide, by decide, by decide, by decide⟩

/-- C9, amended: on the forwarding path (a non-`OPTIONS` request with a non-empty `url`)
every error outcome is a plain-text reply with its status code and a non-empty body:
403 for a rejected origin, 400 for a target that does not parse, 500 when the upstream
request cannot be built, 500 with the error text in the body when the upstream call
fails; a rejected preflight is answered 403 with an empty body. -/
theorem error_outcomes (net : Net) (allowList : List String) (r : Request) :
    (r.Method = "OPTIONS" →
      originAllowed allowList (Header.Get r.Header "Origin") = false →
      (serve net allowList r).w.status = some 403 ∧ (serve net allowList r).w.body = []) ∧
    (r.Method ≠ "OPTIONS" → Values.Get r.Query "url" ≠ "" →
      (originAllowed allowList (Header.Get r.Header "Origin") = false →
        PlainTextError (serve net allowList r).w 403 "Origin not allowed") ∧
      (originAllowed allowList (Header.Get r.Header "Origin") = true →
        (∀ e, net.Parse (Values.Get r.Query "url") = .error e →
          PlainTextError (serve net allowList r).w 400 "Invalid target URL") ∧
        (∀ u e, net.Parse (Values.Get r.Query "url") = .ok u →
          net.NewRequest r.Method u = some e →
          PlainTextError (serve net allowList r).w 500 "Failed to create proxy request") ∧
        (∀ u e, net.Parse (Values.Get r.Query "url") = .ok u →
          net.NewRequest r.Method u = none →
          net.Do (upstreamRequest r u) = .error e →
          PlainTextError (serve net allowList r).w 500 ("Proxy error: " ++ e)))) := by
  refine ⟨?_, ?_⟩
  · intro hm hrej
    exact ⟨((serve_preflight_rejected net allowList r hm hrej).1),
      (serve_preflight_rejected net allowList r hm hrej).2⟩
  · intro hm ht
    refine ⟨?_, ?_⟩
    · intro hrej
      rw [serve_origin_rejected net allowList r hm ht hrej]
      exact plainTextError_of_unsent _ _ _ rfl rfl rfl (by decide)
    · intro ha
      refine ⟨?_, ?_, ?_⟩
      · intro e hp
        rw [serve_parse_failure net allowList r e hm ht ha hp]
        exact plainTextError_of_unsent _ _ _ rfl rfl rfl (by decide)
      · intro u e hp hn
        rw [serve_request_construction_failure net allowList r u e hm ht ha hp hn]
        exact plainTextError_of_unsent _ _ _ rfl rfl rfl (by decide)
      · intro u e hp hn hd
        rw [serve_upstream_failure net allowList r u e hm ht ha hp hn hd]
        exact plainTextError_of_unsent _ _ _ rfl rfl rfl (by decide)

theorem error_outcomes_witness :
    PlainTextError (serve sampleNet allowedOrigins
      (sampleRequest "GET" goodOrigin ["http://down.example/"])).w 500
      "Proxy error: Get \"http://down.example/\": dial tcp: connection refused" ∧
    PlainTextError (serve sampleNet allowedOrigins
      (sampleRequest "G T" goodOrigin ["http://a/"])).w 500
      "Failed to create proxy request" :=
  ⟨(((error_outcomes sampleNet allowedOrigins
      (sampleRequest "GET" goodOrigin ["http://down.example/"])).2
      (by decide) (by decide)).2 (by decide)).2.2
      "http://down.example/" "Get \"http://down.example/\": dial tcp: connection refused"
      rfl rfl rfl,
   (((error_outcomes sampleNet allowedOrigins
      (sampleRequest "G T" goodOrigin ["http://a/"])).2
      (by decide) (by decide)).2 (by decide)).2.1
      "http://a/" "net/http: invalid method \"G T\"" rfl rfl⟩

/-- C10, as stated, fails: a `url` parameter with an empty value is present in the
query string, yet the demo page is served, to an origin the check rejects. -/
theorem empty_url_value_serves_demo :
    Values.Has (sampleRequest "GET" badOrigin [""]).Query "url" = true ∧
    originAllowed allowedOrigins
      (Header.Get (sampleRequest "GET" badOrigin [""]).Header "Origin") = false ∧
    (serve sampleNet allowedOrigins (sampleRequest "GET" badOrigin [""])).w.status
      = some 200 ∧
    (serve sampleNet allowedOrigins (sampleRequest "GET" badOrigin [""])).w.body
      = stringBytes demoHTML ∧
    (serve sampleNet allowedOrigins (sampleRequest "GET" badOrigin [""])).calls = [] :=
  have h := serve_demo sampleNet allowedOrigins (sampleRequest "GET" badOrigin [""])
    (by decide) (by decide)
  ⟨by decide, by decide, h.1, h.2.1, h.2.2.2⟩

/-- C10, amended: a non-`OPTIONS` request is served the demo page (200, the fixed
`demoHTML`, no header, no origin check, no upstream request) when the first `url` value
is empty, which covers a query string without `url`; when it is not empty the forwarding
logic runs: a rejected origin gets 403, a target that does not parse gets 400, a request
that cannot be built gets 500, and otherwise the upstream request is made. -/
theorem demo_page_when_target_empty (net : Net) (allowList : List String) (r : Request)
    (hm : r.Method ≠ "OPTIONS") :
    (Values.Has r.Query "url" = false → Values.Get r.Query "url" = "") ∧
    (Values.Get r.Query "url" = "" →
      (serve net allowList r).w.status = some 200 ∧
      (serve net allowList r).w.body = stringBytes demoHTML ∧
      (serve net allowList r).w.sentHeader = [] ∧
      (serve net allowList r).calls = []) ∧
    (Values.Get r.Query "url" ≠ "" →
      (originAllowed allowList (Header.Get r.Header "Origin") = false →
        PlainTextError (serve net allowList r).w 403 "Origin not allowed" ∧
        (serve net allowList r).calls = []) ∧
      (originAllowed allowList (Header.Get r.Header "Origin") = true →
        (∀ e, net.Parse (Values.Get r.Query "url") = .error e →
          PlainTextError (serve net allowList r).w 400 "Invalid target URL" ∧
          (serve net allowList r).calls = []) ∧
        (∀ u e, net.Parse (Values.Get r.Query "url") = .ok u →
          net.NewRequest r.Method u = some e →
          PlainTextError (serve net allowList r).w 500 "Failed to create proxy request" ∧
          (serve net allowList r).calls = []) ∧
        (∀ u, net.Parse (Values.Get r.Query "url") = .ok u →
          net.NewRequest r.Method u = none →
          (serve net allowList r).calls = [upstreamRequest r u]))) := by
  refine ⟨Values.Get_of_not_Has r.Query "url", serve_demo net allowList r hm, ?_⟩
  intro ht
  refine ⟨?_, ?_⟩
  · intro hrej
    rw [serve_origin_rejected net allowList r hm ht hrej]
    exact ⟨plainTextError_of_unsent _ _ _ rfl rfl rfl (by decide), rfl⟩
  · intro ha
    refine ⟨?_, ?_, ?_⟩
    · intro e hp
      rw [serve_parse_failure net allowList r e hm ht ha hp]
      exact ⟨plainTextError_of_unsent _ _ _ rfl rfl rfl (by decide), rfl⟩
    · intro u e hp hn
      rw [serve_request_construction_failure net allowList r u e hm ht ha hp hn]
      exact ⟨plainTextError_of_unsent _ _ _ rfl rfl rfl (by decide), rfl⟩
    · intro u hp hn
      exact serve_calls net allowList r u hm ht ha hp hn

theorem demo_page_when_target_empty_witness :
    (serve sampleNet allowedOrigins (sampleRequest "GET" badOrigin [])).w.status = some 200 ∧
    (serve sampleNet allowedOrigins (sampleRequest "GET" badOrigin [])).w.body
      = stringBytes demoHTML :=
  have h := (demo_page_when_target_empty sampleNet allowedOrigins
    (sampleRequest "GET" badOrigin []) (by decide)).2.1 (by decide)
  ⟨h.1, h.2.1⟩

end GoCorsProxy
